import Mathlib

/-!
# Verification of the font library core (`src/lib.rs`)

A shallow embedding, in Lean 4, of the format dispatcher, the `Font`
abstraction, the interpreter operand type `Value`, the subroutine
`Context`, and the interpreter `State` of the font parsing library,
together with proofs of the specification's claims about them.

Conventions of the embedding:
* byte values are `Nat` (always < 256 where it matters);
* Rust `i32` values are `Int` (with explicit two's-complement wrapping
  where the source casts);
* `f32` values are represented by their exact rational value (every
  finite `f32` is a rational number); the `i32 as f32` cast rounds to
  the nearest representable value, ties to even, as Rust defines it;
* a Rust panic (`panic!`, `unwrap`, `expect`, `unimplemented!`) is an
  unrecoverable outcome and is modelled as an `Except .error` (or, for
  the dispatcher, a dedicated failure constructor) — distinct from a
  recoverable `Option.none`.
-/

/-! ## Interpreter errors

The error taxonomy for the stack-machine components.  Each constructor
corresponds to a distinct fatal site in the source. -/

inductive InterpError where
  /-- `State::pop` on an empty stack (`expect "no value on the stack"`). -/
  | stackUnderflow
  /-- `State::args` with fewer stack entries than requested
      (`T::from_iter(...).unwrap()` fails). -/
  | argsUnderflow
  /-- operand stack grown beyond the format's limit. -/
  | stackOverflow
  /-- `Context::subr` / `Context::global_subr` lookup failed
      (`expect "requested subroutine not found"`). -/
  | missingSubr
  /-- `Value::to_int` / `Value::to_uint` applied to a `Float`
      (`"tried to cast a float to int"`). -/
  | typeMismatch
  /-- `Value::to_uint` applied to a negative `Int`
      (`"expected a unsigned int"`). -/
  | negativeUint
  deriving DecidableEq, Repr

/-! ## `Value`: the interpreter operand

```rust
pub enum Value { Int(i32), Float(f32) }
```
-/

/-- The exact rational value of an `f32`. -/
abbrev F32 := ℚ

/-- Floor of the base-2 logarithm, by fuel (the fuel argument only has to
dominate the recursion depth; `n` itself always suffices). -/
def log2fuel : Nat → Nat → Nat
  | 0, _ => 0
  | fuel + 1, n => if n < 2 then 0 else log2fuel fuel (n / 2) + 1

/-- Floor of the base-2 logarithm of `n` (0 for `n = 0`), for `n < 2^64`
— which covers every `i32` magnitude. -/
def log2floor (n : Nat) : Nat := log2fuel 64 n

/-- Round `n` to the nearest multiple of `s` (for `s > 0`), ties going to
the even multiple — the IEEE-754 default rounding. -/
def roundHalfEven (n s : Nat) : Nat :=
  let q := n / s
  let r := n % s
  if 2 * r < s then q * s
  else if s < 2 * r then (q + 1) * s
  else if q % 2 = 0 then q * s else (q + 1) * s

/-- The magnitude of the `f32` nearest to the natural number `n`
(for `n < 2^128`, which covers every `i32`): exact up to `2^24`, above
that rounded to the 24-bit significand grid, ties to even. -/
def f32RoundNat (n : Nat) : Nat :=
  if n ≤ 2 ^ 24 then n
  else roundHalfEven n (2 ^ (log2floor n - 23))

/-- The exact integer value of the `f32` produced by Rust's `i as f32`
cast (round to nearest, ties to even; every `i32` rounds to an integral
`f32`). -/
def f32OfI32 (i : Int) : Int :=
  if 0 ≤ i then (f32RoundNat i.toNat : Int) else -(f32RoundNat (-i).toNat : Int)

/-- `Value`: a tagged 32-bit integer or 32-bit float operand. -/
inductive Value where
  | int (i : Int)
  | float (f : F32)
  deriving DecidableEq, Repr

namespace Value

/-- Source:
```rust
fn to_int(self) -> i32 {
    match self {
        Value::Int(i) => i,
        Value::Float(_) => panic!("tried to cast a float to int")
    }
}
``` -/
def to_int : Value → Except InterpError Int
  | .int i => .ok i
  | .float _ => .error .typeMismatch

/-- Source:
```rust
fn to_uint(self) -> u32 {
    match self {
        Value::Int(i) if i >= 0 => i as u32,
        Value::Int(_) => panic!("expected a unsigned int"),
        Value::Float(_) => panic!("tried to cast a float to int")
    }
}
``` -/
def to_uint : Value → Except InterpError Nat
  | .int i => if 0 ≤ i then .ok i.toNat else .error .negativeUint
  | .float _ => .error .typeMismatch

/-- Source:
```rust
fn to_float(self) -> f32 {
    match self {
        Value::Int(i) => i as f32,
        Value::Float(f) => f
    }
}
```
Never fails; the `i32 as f32` cast rounds to the nearest `f32`. -/
def to_float : Value → F32
  | .int i => ((f32OfI32 i : Int) : ℚ)
  | .float f => f

end Value

/-! ## The container dispatcher

```rust
pub fn parse<O: Outline + 'static>(data: &[u8]) -> Box<dyn Font<O>> {
    let magic: &[u8; 4] = data[0 .. 4].try_into().unwrap();
    match magic {
        &[0x80, 1, _, _] => Box::new(Type1Font::parse_pfb(data)) as _,
        b"OTTO" | [0,1,0,0] => parse_opentype(data, 0),
        b"ttcf" | b"typ1" => unimplemented!(),
        b"true" => Box::new(TrueTypeFont::parse(data)) as _,
        b"%!PS" => Box::new(Type1Font::parse_postscript(data)) as _,
        b"wOFF" => woff(data),
        b"wOF2" => woff2(data),
        &[1, _, _, _] => Box::new(CffFont::parse(data, 0)) as _,
        magic => panic!("unknown magic {:?}", magic)
    }
}
```
-/

/-- The routing decision of `parse`: which format-specific parser the
input is handed to, or which failure it hits.  `unsupported` is the
`unimplemented!()` arm (the `UnsupportedFormat` error of the spec's
taxonomy, reached for the collection magics), `unknownMagic` the
`"unknown magic"` failure, `truncated` the out-of-bounds `data[0..4]`
on inputs shorter than four bytes. -/
inductive DispatchResult where
  /-- `Type1Font::parse_pfb` — Type 1 PFB. -/
  | type1Pfb
  /-- `parse_opentype` — OpenType. -/
  | openType
  /-- `TrueTypeFont::parse` — TrueType. -/
  | trueType
  /-- `Type1Font::parse_postscript` — textual Type 1. -/
  | type1Postscript
  /-- `woff` — WOFF decompressor. -/
  | woffDecompress
  /-- `woff2` — WOFF2 decompressor. -/
  | woff2Decompress
  /-- `CffFont::parse` — bare CFF. -/
  | bareCff
  /-- collection formats (`ttcf`, `typ1`): recognized, deliberately
      unimplemented. -/
  | unsupported
  /-- no pattern matched the four magic bytes. -/
  | unknownMagic
  /-- fewer than four input bytes. -/
  | truncated
  deriving DecidableEq, Repr

/-- The `match magic { ... }` of `parse`, arm for arm, in source order
(the Rust patterns are mutually exclusive, so the order of this `if`
chain is immaterial, but it mirrors the source). -/
def dispatchMagic (b0 b1 b2 b3 : Nat) : DispatchResult :=
  if b0 = 0x80 ∧ b1 = 1 then .type1Pfb
  else if (b0, b1, b2, b3) = (0x4F, 0x54, 0x54, 0x4F) ∨
          (b0, b1, b2, b3) = (0, 1, 0, 0) then .openType
  else if (b0, b1, b2, b3) = (0x74, 0x74, 0x63, 0x66) ∨
          (b0, b1, b2, b3) = (0x74, 0x79, 0x70, 0x31) then .unsupported
  else if (b0, b1, b2, b3) = (0x74, 0x72, 0x75, 0x65) then .trueType
  else if (b0, b1, b2, b3) = (0x25, 0x21, 0x50, 0x53) then .type1Postscript
  else if (b0, b1, b2, b3) = (0x77, 0x4F, 0x46, 0x46) then .woffDecompress
  else if (b0, b1, b2, b3) = (0x77, 0x4F, 0x46, 0x32) then .woff2Decompress
  else if b0 = 1 then .bareCff
  else .unknownMagic

/-- `parse`: read the four magic bytes (out-of-bounds is fatal) and
dispatch on them. -/
def parse (data : List Nat) : DispatchResult :=
  match data with
  | b0 :: b1 :: b2 :: b3 :: _ => dispatchMagic b0 b1 b2 b3
  | _ => .truncated

/-- The four-byte magics the dispatcher recognizes: exactly the
conditions of the `match` arms of `parse` that are not the catch-all. -/
def recognizedMagic (b0 b1 b2 b3 : Nat) : Prop :=
  (b0 = 0x80 ∧ b1 = 1) ∨
  (b0, b1, b2, b3) = (0x4F, 0x54, 0x54, 0x4F) ∨
  (b0, b1, b2, b3) = (0, 1, 0, 0) ∨
  (b0, b1, b2, b3) = (0x74, 0x74, 0x63, 0x66) ∨
  (b0, b1, b2, b3) = (0x74, 0x79, 0x70, 0x31) ∨
  (b0, b1, b2, b3) = (0x74, 0x72, 0x75, 0x65) ∨
  (b0, b1, b2, b3) = (0x25, 0x21, 0x50, 0x53) ∨
  (b0, b1, b2, b3) = (0x77, 0x4F, 0x46, 0x46) ∨
  (b0, b1, b2, b3) = (0x77, 0x4F, 0x46, 0x32) ∨
  b0 = 1

instance (b0 b1 b2 b3 : Nat) : Decidable (recognizedMagic b0 b1 b2 b3) := by
  unfold recognizedMagic; infer_instance

/-! ## The `Font` abstraction

```rust
pub trait Font<O: Outline> {
    fn num_glyphs(&self) -> u32;
    fn font_matrix(&self) -> Transform;
    fn glyph(&self, gid: u32) -> Option<Glyph<O>>;
    fn glyphs(&self) -> Glyphs<O> { ... }
    fn gid_for_codepoint(&self, _codepoint: u32) -> Option<u32> { None }
    fn gid_for_name(&self, _name: &str) -> Option<u32> { None }
    fn gid_for_unicode_codepoint(&self, codepoint: u32) -> Option<u32> { ... }
    fn encoding(&self) -> Option<Encoding> { None }
    fn get_notdef_gid(&self) -> u32 { 0 }
    fn bbox(&self) -> Option<Rect> { None }
    fn vmetrics(&self) -> Option<VMetrics> { None }
    fn kerning(&self, left: u32, right: u32) -> f32 { 0.0 }
}
```

The trait is modelled as a structure of method fields; a trait `impl`
is a structure value, and a method the `impl` does not override keeps
the field's default value, which is the Rust default body.  The
provided methods whose bodies are fixed compositions (`glyphs`,
`gid_for_unicode_codepoint`) are modelled as functions of the
structure. -/

/-- A 2-vector of `f32` (the external `Vector` type). -/
abbrev Vector2 := F32 × F32

/-- The external 2×3 affine `Transform`; only its presence matters here. -/
structure Transform where
  m11 : F32
  m12 : F32
  m21 : F32
  m22 : F32
  m31 : F32
  m32 : F32
  deriving DecidableEq, Repr

/-- The external `Rect` (origin and size); only its presence matters here. -/
abbrev Rect := Vector2 × Vector2

/-- `HMetrics { lsb: Vector, advance: Vector }`. -/
structure HMetrics where
  lsb : Vector2
  advance : Vector2
  deriving DecidableEq, Repr

/-- `VMetrics { line_gap: f32 }`. -/
structure VMetrics where
  line_gap : F32
  deriving DecidableEq, Repr

/-- `Glyph<O> { metrics: HMetrics, path: O }`; the outline type `O` stays
a parameter, as in the source. -/
structure Glyph (O : Type) where
  metrics : HMetrics
  path : O

/-- Modelled from the spec: the `Encoding` type comes from the external
`encoding` crate (not under `src/`).  Per the spec it is a bidirectional
mapping from single-byte codepoints to glyph identifiers plus an
optional reverse map from Unicode codepoints; `reverse_map()` returns
the reverse map when the encoding has one, and `reverse.get(c)` returns
the single-byte codepoint (a `u8`, hence `Fin 256`) for the Unicode
codepoint `c` when it has one. -/
structure EncodingM where
  reverse_map : Option (Nat → Option (Fin 256))

/-- The `Font` trait as a record of methods.  Fields with a `:=` default
carry the Rust default body; an `impl` that overrides a method is a
structure value setting that field. -/
structure FontImpl (O : Type) where
  num_glyphs : Nat
  font_matrix : Transform
  glyph : Nat → Option (Glyph O)
  gid_for_codepoint : Nat → Option Nat := fun _ => none
  gid_for_name : String → Option Nat := fun _ => none
  encoding : Option EncodingM := none
  get_notdef_gid : Nat := 0
  bbox : Option Rect := none
  vmetrics : Option VMetrics := none
  kerning : Nat → Nat → F32 := fun _ _ => 0

/-- `Glyphs<O>`, the collected-glyphs struct returned by `Font::glyphs`. -/
structure Glyphs (O : Type) where
  glyphs : List (Glyph O)

/-- `Glyphs::get(codepoint)`: index into the collected list. -/
def Glyphs.get {O : Type} (g : Glyphs O) (codepoint : Nat) : Option (Glyph O) :=
  g.glyphs.get? codepoint

/-- Unwrap every element of a list of options; the first `none`
encountered is a fatal `unwrap` and makes the whole collection fail. -/
def unwrapAll {α : Type} : List (Option α) → Option (List α)
  | [] => some []
  | none :: _ => none
  | some x :: rest => (unwrapAll rest).map (x :: ·)

/-- The provided method
```rust
fn glyphs(&self) -> Glyphs<O> {
    Glyphs {
        glyphs: (0 .. self.num_glyphs()).map(|i| self.glyph(i).unwrap()).collect()
    }
}
```
The `unwrap` panics as soon as any gid in `0 .. num_glyphs` has no
glyph, so the call is modelled as `Option`: `none` is the panic. -/
def FontImpl.glyphs {O : Type} (f : FontImpl O) : Option (Glyphs O) :=
  (unwrapAll ((List.range f.num_glyphs).map f.glyph)).map Glyphs.mk

/-- The provided method
```rust
fn gid_for_unicode_codepoint(&self, codepoint: u32) -> Option<u32> {
    self.encoding()
        .and_then(|encoding| encoding.reverse_map())
        .and_then(|reverse| reverse.get(codepoint))
        .and_then(|cp| self.gid_for_codepoint(cp as u32))
}
``` -/
def FontImpl.gid_for_unicode_codepoint {O : Type} (f : FontImpl O)
    (codepoint : Nat) : Option Nat :=
  ((((f.encoding).bind fun encoding => encoding.reverse_map).bind
      fun reverse => reverse codepoint).bind
    fun cp => f.gid_for_codepoint (cp : Nat))

/-! ## The subroutine `Context`

```rust
pub struct Context<T=(), U=()> {
    pub subr_bias: i32,
    pub subrs: T,
    pub global_subrs: U,
    pub global_subr_bias: i32,
}
impl<T, U> Context<T, U> where T: TryIndex, U: TryIndex {
    pub fn subr(&self, idx: i32) -> &[u8] {
        self.subrs.try_index((idx + self.subr_bias) as usize)
            .expect("requested subroutine not found")
    }
    pub fn global_subr(&self, idx: i32) -> &[u8] {
        self.global_subrs.try_index((idx + self.global_subr_bias) as usize)
            .expect("requested global subroutine not found")
    }
}
```
The `TryIndex` instance modelled is the `Vec<Vec<u8>>` one
(`self.get(idx)`); subroutine bodies are byte lists. -/

/-- `TryIndex for Vec<Vec<u8>>`: `self.get(idx).map(|v| &**v)`. -/
def tryIndexVec (subrs : List (List Nat)) (idx : Nat) : Option (List Nat) :=
  subrs.get? idx

/-- Rust's `i32 as usize` on a 64-bit target: sign-extend, then
reinterpret, i.e. reduce modulo `2^64` (a negative `i32` becomes a
value ≥ `2^64 - 2^31`). -/
def usizeOfI32 (i : Int) : Nat := (i % (2 : Int) ^ 64).toNat

/-- The result of Rust's `i32` addition: reduce the mathematical sum
into `[-2^31, 2^31)` (two's-complement wrap-around, the release-build
semantics; a debug build would abort on the same overflowing sums). -/
def i32Wrap (v : Int) : Int := (v + 2 ^ 31) % 2 ^ 32 - 2 ^ 31

/-- The subroutine context, over concrete subroutine collections. -/
structure Context where
  subr_bias : Int
  subrs : List (List Nat)
  global_subrs : List (List Nat)
  global_subr_bias : Int

/-- `Context::subr(idx)`: look up position `(idx + subr_bias) as usize`,
where `idx + self.subr_bias` is `i32` addition (wrapping) and the cast
is `i32 as usize`; a failed lookup is the fatal `expect`. -/
def Context.subr (c : Context) (idx : Int) : Except InterpError (List Nat) :=
  match tryIndexVec c.subrs (usizeOfI32 (i32Wrap (idx + c.subr_bias))) with
  | some s => .ok s
  | none => .error .missingSubr

/-- `Context::global_subr(idx)`: the same over the global collection. -/
def Context.global_subr (c : Context) (idx : Int) : Except InterpError (List Nat) :=
  match tryIndexVec c.global_subrs (usizeOfI32 (i32Wrap (idx + c.global_subr_bias))) with
  | some s => .ok s
  | none => .error .missingSubr

/-! ## The interpreter `State`

```rust
pub struct State<O: Outline> {
    pub stack: Vec<Value>,
    pub path: PathBuilder<O>,
    pub current: Vector,
    pub lsb: Option<Vector>,
    pub char_width: Option<f32>,
    pub done: bool,
    pub stem_hints: u32,
    pub delta_width: Option<f32>,
    pub first_stack_clearing_operator: bool
}
```
The path builder is external; its state type stays a parameter `P`.
The stack is a list whose last element is the top (`Vec::push`
appends, `Vec::pop` removes the last element). -/

structure State (P : Type) where
  stack : List Value
  path : P
  current : Vector2
  lsb : Option Vector2
  char_width : Option F32
  done : Bool
  stem_hints : Nat
  delta_width : Option F32
  first_stack_clearing_operator : Bool

/-- `State::push`: `self.stack.push(v.into())` — unbounded in `lib.rs`. -/
def State.push {P : Type} (s : State P) (v : Value) : State P :=
  { s with stack := s.stack ++ [v] }

/-- `State::pop`: `self.stack.pop().expect("no value on the stack")` —
remove and return the top (last) element; the empty stack is fatal. -/
def State.pop {P : Type} (s : State P) : Except InterpError (Value × State P) :=
  match s.stack.getLast? with
  | none => .error .stackUnderflow
  | some v => .ok (v, { s with stack := s.stack.dropLast })

/-- `T::from_iter` for an `N`-tuple: draw `n` elements from the front of
the list, `none` if it runs out early. -/
def tupleFromIter {α : Type} : Nat → List α → Option (List α)
  | 0, _ => some []
  | _ + 1, [] => none
  | n + 1, x :: rest => (tupleFromIter n rest).map (x :: ·)

/-- `State::args::<T>`:
```rust
pub fn args<T>(&mut self) -> T where T: TupleElements<Element=Value> {
    T::from_iter(self.stack.iter().cloned()).unwrap()
}
```
Reads `stack[0 .. N]` (the bottom `n` entries, in order) without
modifying anything; the state is returned alongside to make the frame
effect (none) explicit.  Fewer than `n` entries makes `from_iter`
return `None` and the `unwrap` fatal. -/
def State.args {P : Type} (n : Nat) (s : State P) :
    Except InterpError (List Value × State P) :=
  match tupleFromIter n s.stack with
  | some vs => .ok (vs, s)
  | none => .error .argsUnderflow

/-! ## Charstring interpretation: operand-stack discipline

`lib.rs` declares `mod type1;` and `mod type2;`, but the interpreter
modules themselves are not under `src/`; only the shared `State` (whose
`push` is unbounded) is.  The stack discipline the interpreters impose
is therefore modelled from the spec. -/

/-- Modelled from the spec: the Type 2 operand-stack limit
("Operand stack never exceeds 48 entries (Type 2)"). -/
def TYPE2_STACK_LIMIT : Nat := 48

/-- Modelled from the spec: the Type 1 operand-stack limit
("... or 24 (Type 1)"). -/
def TYPE1_STACK_LIMIT : Nat := 24

/-- Modelled from the spec: the two kinds of stack action a charstring
instruction performs on the operand stack — pushing an operand, and a
stack-clearing operator ("Each operator clears the stack except
`return` and `callsubr`"); operators that leave the stack untouched
need no action here. -/
inductive CsInstr where
  /-- an operand byte sequence, pushing one decoded `Value`. -/
  | pushVal (v : Value)
  /-- a stack-clearing operator. -/
  | clearOp
  deriving DecidableEq, Repr

/-- Modelled from the spec: the interpreter pushes through the format's
limit check — exceeding the limit is a stack-overflow error rather than
a larger stack. -/
def pushLimited (limit : Nat) (stack : List Value) (v : Value) :
    Except InterpError (List Value) :=
  if limit ≤ stack.length then .error .stackOverflow
  else .ok (stack ++ [v])

/-- Modelled from the spec: the operand-stack evolution of a charstring
interpreter with stack limit `limit`, over the stack actions of its
instruction stream. -/
def runCharstring (limit : Nat) : List CsInstr → List Value →
    Except InterpError (List Value)
  | [], stack => .ok stack
  | .pushVal v :: rest, stack =>
    match pushLimited limit stack v with
    | .ok stack2 => runCharstring limit rest stack2
    | .error e => .error e
  | .clearOp :: rest, _ => runCharstring limit rest []

/-! ## Concrete example fonts

Small `FontImpl` values used to witness the theorems below. -/

/-- The zero transform, for example fonts (its value never matters). -/
def transform0 : Transform := ⟨0, 0, 0, 0, 0, 0⟩

/-- An example font with an encoding: the reverse map sends Unicode
0x41 to the single-byte codepoint 65, and `gid_for_codepoint 65` is
glyph 2. -/
def encodedFont : FontImpl Unit where
  num_glyphs := 3
  font_matrix := transform0
  glyph := fun _ => none
  gid_for_codepoint := fun cp => if cp = 65 then some 2 else none
  encoding := some ⟨some (fun c => if c = 0x41 then some ⟨65, by decide⟩ else none)⟩

/-- An example font keeping every trait default (no encoding, no
codepoint map, notdef 0). -/
def bareFont : FontImpl Unit where
  num_glyphs := 3
  font_matrix := transform0
  glyph := fun _ => none

/-- A partially-broken example font: two glyphs, glyph 0 interprets
fine, glyph 1 reports a per-glyph failure (`none`). -/
def partialFont : FontImpl Unit where
  num_glyphs := 2
  font_matrix := transform0
  glyph := fun gid => if gid = 0 then some ⟨⟨(0, 0), (1, 0)⟩, ()⟩ else none

/-! # Theorems -/

/-- **C1**: the dispatcher inspects the first four bytes and routes
`[0x80, 0x01, _, _]` to the Type 1 PFB parser, `"OTTO"` and
`[0, 1, 0, 0]` to OpenType, `"true"` to TrueType, `"%!PS"` to textual
Type 1, `"wOFF"`/`"wOF2"` to the WOFF decompressors and `[0x01, _, _, _]`
to bare CFF; any four-byte magic the dispatcher does not recognize —
`0xDE 0xAD 0xBE 0xEF` among them — fails with the unknown-magic error
and produces no font handle. -/
theorem parse_routes_by_magic :
    (∀ b2 b3 rest, parse (0x80 :: 1 :: b2 :: b3 :: rest) = .type1Pfb)
    ∧ (∀ rest, parse (0x4F :: 0x54 :: 0x54 :: 0x4F :: rest) = .openType)
    ∧ (∀ rest, parse (0 :: 1 :: 0 :: 0 :: rest) = .openType)
    ∧ (∀ rest, parse (0x74 :: 0x72 :: 0x75 :: 0x65 :: rest) = .trueType)
    ∧ (∀ rest, parse (0x25 :: 0x21 :: 0x50 :: 0x53 :: rest) = .type1Postscript)
    ∧ (∀ rest, parse (0x77 :: 0x4F :: 0x46 :: 0x46 :: rest) = .woffDecompress)
    ∧ (∀ rest, parse (0x77 :: 0x4F :: 0x46 :: 0x32 :: rest) = .woff2Decompress)
    ∧ (∀ b1 b2 b3 rest, parse (1 :: b1 :: b2 :: b3 :: rest) = .bareCff)
    ∧ (∀ b0 b1 b2 b3 rest, ¬ recognizedMagic b0 b1 b2 b3 →
        parse (b0 :: b1 :: b2 :: b3 :: rest) = .unknownMagic) := by
  refine ⟨fun b2 b3 rest => ?_, fun rest => ?_, fun rest => ?_, fun rest => ?_,
    fun rest => ?_, fun rest => ?_, fun rest => ?_, fun b1 b2 b3 rest => ?_,
    fun b0 b1 b2 b3 rest h => ?_⟩
  · simp [parse, dispatchMagic]
  · simp [parse, dispatchMagic]
  · simp [parse, dispatchMagic]
  · simp [parse, dispatchMagic]
  · simp [parse, dispatchMagic]
  · simp [parse, dispatchMagic]
  · simp [parse, dispatchMagic]
  · simp [parse, dispatchMagic]
  · simp only [recognizedMagic, Prod.mk.injEq, not_or] at h
    obtain ⟨h1, h2, h3, h4, h5, h6, h7, h8, h9, h10⟩ := h
    simp only [parse, dispatchMagic, Prod.mk.injEq]
    rw [if_neg h1, if_neg (not_or.mpr ⟨h2, h3⟩), if_neg (not_or.mpr ⟨h4, h5⟩),
      if_neg h6, if_neg h7, if_neg h8, if_neg h9, if_neg h10]

/-- **C1 witness**: the concrete input `0xDE 0xAD 0xBE 0xEF` is not a
recognized magic and hits the unknown-magic failure. -/
theorem parse_routes_by_magic_witness :
    parse [0xDE, 0xAD, 0xBE, 0xEF] = .unknownMagic :=
  parse_routes_by_magic.2.2.2.2.2.2.2.2 0xDE 0xAD 0xBE 0xEF [] (by decide)

/-- **C7**: the collection magics `"ttcf"` and `"typ1"` are recognized by
the dispatcher and reach its deliberately-unimplemented arm — reported
as the unsupported-format outcome, which is distinct from producing a
handle and distinct from the unknown-magic failure. -/
theorem parse_collections_unsupported :
    (∀ rest, parse (0x74 :: 0x74 :: 0x63 :: 0x66 :: rest) = .unsupported)
    ∧ (∀ rest, parse (0x74 :: 0x79 :: 0x70 :: 0x31 :: rest) = .unsupported)
    ∧ DispatchResult.unsupported ≠ DispatchResult.unknownMagic := by
  refine ⟨fun rest => ?_, fun rest => ?_, by decide⟩
  · simp [parse, dispatchMagic]
  · simp [parse, dispatchMagic]

/-- **C8**: the `Font` trait's provided `get_notdef_gid` returns 0: any
implementation that does not override the method — i.e. any `FontImpl`
built from just the required methods, keeping the defaults — has notdef
glyph id 0. -/
theorem get_notdef_gid_default_zero :
    ∀ (O : Type) (n : Nat) (fm : Transform) (g : Nat → Option (Glyph O)),
      ({ num_glyphs := n, font_matrix := fm, glyph := g } : FontImpl O).get_notdef_gid
        = 0 :=
  fun _ _ _ _ => rfl

/-- **C9**: `State::pop` on an empty operand stack is the unrecoverable
stack-underflow error — and only then: on a non-empty stack it returns
the top value, never a default. -/
theorem pop_empty_is_underflow :
    ∀ (P : Type) (s : State P),
      (s.pop = .error .stackUnderflow ↔ s.stack = [])
      ∧ (∀ l v, s.stack = l ++ [v] →
          s.pop = .ok (v, { s with stack := l })) := by
  intro P s
  constructor
  · unfold State.pop
    cases hl : s.stack.getLast? with
    | none => simpa using List.getLast?_eq_none_iff.mp hl
    | some v =>
      simp only [Except.ok.injEq, reduceCtorEq, false_iff]
      intro he
      rw [he] at hl
      simp at hl
  · intro l v hs
    unfold State.pop
    rw [hs, List.getLast?_concat, List.dropLast_concat]

/-- **C9 witness**: popping a concrete empty-stack state underflows, and
popping a one-element stack returns that element. -/
theorem pop_empty_is_underflow_witness :
    (State.pop ⟨[], (), (0, 0), none, none, false, 0, none, true⟩
      = .error .stackUnderflow)
    ∧ (State.pop ⟨[Value.int 3], (), (0, 0), none, none, false, 0, none, true⟩
      = .ok (Value.int 3, ⟨[], (), (0, 0), none, none, false, 0, none, true⟩)) :=
  ⟨(pop_empty_is_underflow Unit _).1.mpr rfl,
   (pop_empty_is_underflow Unit _).2 [] (Value.int 3) rfl⟩

/-- `T::from_iter` succeeds exactly on lists long enough, and then takes
the first `n` elements. -/
theorem tupleFromIter_eq_take {α : Type} :
    ∀ (n : Nat) (l : List α), n ≤ l.length → tupleFromIter n l = some (l.take n)
  | 0, _, _ => rfl
  | n + 1, [], h => by simp at h
  | n + 1, x :: l, h => by
    rw [tupleFromIter, tupleFromIter_eq_take n l (by simpa using h)]
    simp

/-- `T::from_iter` fails on lists that are too short. -/
theorem tupleFromIter_eq_none {α : Type} :
    ∀ (n : Nat) (l : List α), l.length < n → tupleFromIter n l = none
  | n + 1, [], _ => rfl
  | n + 1, x :: l, h => by
    rw [tupleFromIter, tupleFromIter_eq_none n l (by simpa using h)]
    rfl

/-- **C10**: `State::args` with `n` requested values returns the bottom
`n` stack entries in order when the stack holds at least `n`, leaving
the whole state — stack included — unchanged; with fewer than `n`
entries the `unwrap` is fatal. -/
theorem args_bottom_n_state_unchanged :
    ∀ (P : Type) (s : State P) (n : Nat),
      (n ≤ s.stack.length → s.args n = .ok (s.stack.take n, s))
      ∧ (s.stack.length < n → s.args n = .error .argsUnderflow) := by
  intro P s n
  constructor
  · intro h
    unfold State.args
    rw [tupleFromIter_eq_take n s.stack h]
  · intro h
    unfold State.args
    rw [tupleFromIter_eq_none n s.stack h]

/-- **C10 witness**: on a concrete two-entry state, `args 2` returns both
entries bottom-first and the state itself; `args 3` is fatal. -/
theorem args_bottom_n_state_unchanged_witness :
    (State.args 2 ⟨[Value.int 7, Value.float (1/2)], (), (0, 0), none, none,
        false, 0, none, true⟩
      = .ok ([Value.int 7, Value.float (1/2)],
          ⟨[Value.int 7, Value.float (1/2)], (), (0, 0), none, none,
            false, 0, none, true⟩))
    ∧ (State.args 3 ⟨[Value.int 7, Value.float (1/2)], (), (0, 0), none, none,
        false, 0, none, true⟩
      = .error .argsUnderflow) :=
  ⟨(args_bottom_n_state_unchanged Unit _ 2).1 (by decide),
   (args_bottom_n_state_unchanged Unit _ 3).2 (by decide)⟩

/-- **C3**: `gid_for_unicode_codepoint(c)` is exactly the composition
`encoding() → reverse_map() → reverse.get(c) → gid_for_codepoint`: it
returns `some gid` precisely when the font has an encoding, the
encoding has a reverse map, the reverse map sends `c` to a single-byte
codepoint `cp`, and `gid_for_codepoint cp = some gid`; it returns
`none` whenever any of those steps is absent. -/
theorem gid_for_unicode_codepoint_composes :
    ∀ (O : Type) (f : FontImpl O) (c : Nat),
      (∀ gid, f.gid_for_unicode_codepoint c = some gid ↔
        ∃ e rev cp, f.encoding = some e ∧ e.reverse_map = some rev ∧
          rev c = some cp ∧ f.gid_for_codepoint (cp : Nat) = some gid)
      ∧ ((f.encoding = none
          ∨ (∃ e, f.encoding = some e ∧ e.reverse_map = none)
          ∨ (∃ e rev, f.encoding = some e ∧ e.reverse_map = some rev ∧
              rev c = none)
          ∨ (∃ e rev cp, f.encoding = some e ∧ e.reverse_map = some rev ∧
              rev c = some cp ∧ f.gid_for_codepoint (cp : Nat) = none)) →
        f.gid_for_unicode_codepoint c = none) := by
  intro O f c
  constructor
  · intro gid
    cases he : f.encoding with
    | none => simp [FontImpl.gid_for_unicode_codepoint, he]
    | some e =>
      cases hr : e.reverse_map with
      | none => simp [FontImpl.gid_for_unicode_codepoint, he, hr]
      | some rev =>
        cases hc : rev c with
        | none => simp [FontImpl.gid_for_unicode_codepoint, he, hr, hc]
        | some cp => simp [FontImpl.gid_for_unicode_codepoint, he, hr, hc]
  · rintro (he | ⟨e, he, hr⟩ | ⟨e, rev, he, hr, hc⟩ | ⟨e, rev, cp, he, hr, hc, hg⟩)
    · simp [FontImpl.gid_for_unicode_codepoint, he]
    · simp [FontImpl.gid_for_unicode_codepoint, he, hr]
    · simp [FontImpl.gid_for_unicode_codepoint, he, hr, hc]
    · simp [FontImpl.gid_for_unicode_codepoint, he, hr, hc, hg]

/-- **C3 witness**: on `encodedFont` (encoding maps Unicode 0x41 to byte
65, glyph 2) the composition yields `some 2`; on `bareFont` (no
encoding) it yields `none`. -/
theorem gid_for_unicode_codepoint_composes_witness :
    encodedFont.gid_for_unicode_codepoint 0x41 = some 2
    ∧ bareFont.gid_for_unicode_codepoint 0x41 = none :=
  ⟨((gid_for_unicode_codepoint_composes Unit encodedFont 0x41).1 2).mpr
      ⟨_, _, _, rfl, rfl, rfl, rfl⟩,
   (gid_for_unicode_codepoint_composes Unit bareFont 0x41).2 (Or.inl rfl)⟩

/-- The whole-collection unwrap succeeds exactly when every element is
present. -/
theorem unwrapAll_isSome_iff {α : Type} :
    ∀ l : List (Option α), (unwrapAll l).isSome ↔ ∀ o ∈ l, o.isSome
  | [] => by simp [unwrapAll]
  | none :: rest => by simp [unwrapAll]
  | some x :: rest => by
    simp [unwrapAll, Option.isSome_map', unwrapAll_isSome_iff rest]

/-- **C2 counterexample**: `partialFont` has a present glyph 0 and a
failing glyph 1, yet enumerating all glyphs through the default
`glyphs()` does *not* remain usable — the method unwraps every glyph of
`0 .. num_glyphs` and is fatal (`none`), refuting the claim that the
rest of the handle, `glyphs()` included, stays usable. -/
theorem glyphs_fatal_on_partial_font :
    (partialFont.glyph 0).isSome
    ∧ partialFont.glyph 1 = none
    ∧ partialFont.num_glyphs = 2
    ∧ partialFont.glyphs = none :=
  ⟨rfl, rfl, rfl, rfl⟩

/-- **C2 (amended)**: a per-glyph interpretation error is confined to the
`glyph(gid)` call for that gid, but the `glyphs()` enumerator is *not*
usable on a partially-broken font: it unwraps every glyph, so it
succeeds exactly when every gid in `0 .. num_glyphs` has a glyph, and
is fatal otherwise. -/
theorem glyphs_ok_iff_every_glyph_present :
    ∀ (O : Type) (f : FontImpl O),
      (f.glyphs).isSome ↔ ∀ gid < f.num_glyphs, (f.glyph gid).isSome := by
  intro O f
  unfold FontImpl.glyphs
  rw [Option.isSome_map', unwrapAll_isSome_iff]
  constructor
  · intro h gid hgid
    exact h _ (List.mem_map_of_mem f.glyph (List.mem_range.mpr hgid))
  · intro h o ho
    obtain ⟨gid, hgid, rfl⟩ := List.mem_map.mp ho
    exact h gid (List.mem_range.mp hgid)

/-- Below `2^24` every natural number is exactly representable in `f32`
and the cast does not round. -/
theorem f32RoundNat_small {n : Nat} (h : n ≤ 2 ^ 24) : f32RoundNat n = n := by
  unfold f32RoundNat
  rw [if_pos h]

/-- **C4 counterexample**: the `Int → Float` conversion is *not*
lossless for every `i32`: `to_float (Int 16777217)` (the first integer
above `2^24`) rounds to `16777216`, so it does not yield the operand
value. -/
theorem to_float_lossy_above_2_pow_24 :
    Value.to_float (.int 16777217) = ((16777216 : Int) : ℚ)
    ∧ Value.to_float (.int 16777217) ≠ ((16777217 : Int) : ℚ) := by
  have hv : f32OfI32 16777217 = 16777216 := by decide
  constructor
  · simp only [Value.to_float, hv]
  · simp only [Value.to_float, hv]
    intro h
    norm_num at h

/-- **C4 (amended)**: an `Int(i)` operand converts to float without
error, yielding the nearest `f32` — which equals `i` exactly when `i`
is `f32`-representable, in particular whenever `|i| ≤ 2^24`; a `Float`
operand converted by `to_int` or `to_uint` is an unrecoverable
type-mismatch error, never a silent coercion. -/
theorem value_conversions :
    (∀ i : Int, i.natAbs ≤ 2 ^ 24 → Value.to_float (.int i) = (i : ℚ))
    ∧ (∀ f : F32, Value.to_int (.float f) = .error .typeMismatch)
    ∧ (∀ f : F32, Value.to_uint (.float f) = .error .typeMismatch) := by
  refine ⟨?_, fun f => rfl, fun f => rfl⟩
  intro i hi
  simp only [Value.to_float]
  unfold f32OfI32
  by_cases h : 0 ≤ i
  · rw [if_pos h, f32RoundNat_small (by omega), Int.toNat_of_nonneg h]
  · rw [if_neg h, f32RoundNat_small (by omega), Int.toNat_of_nonneg (by omega)]
    push_cast
    ring

/-- **C4 witness**: `to_float (Int 100)` is exactly 100, and converting
a concrete `Float` by `to_int`/`to_uint` is the type-mismatch error. -/
theorem value_conversions_witness :
    Value.to_float (.int 100) = ((100 : Int) : ℚ)
    ∧ Value.to_int (.float (1 / 2)) = .error .typeMismatch
    ∧ Value.to_uint (.float (1 / 2)) = .error .typeMismatch :=
  ⟨value_conversions.1 100 (by decide),
   value_conversions.2.1 (1 / 2),
   value_conversions.2.2 (1 / 2)⟩

/-- **C5**: `Context::subr(idx)` (and symmetrically `global_subr`)
indexes the subroutine collection at position `idx + bias` — computed
by `i32` addition (wrapping on overflow) and cast through `as usize`:
whenever the `i32` sum `idx + bias` is a non-negative position the
lookup returns that entry exactly when one exists there, and whenever
no subroutine exists at that position the lookup is the fatal
missing-subroutine error, not a recoverable absence — in particular for
every in-range negative sum (which the cast wraps to a huge index) and
for every positively-overflowing sum in `[2^31, 2^32)` (which the `i32`
addition wraps negative, so the lookup is always fatal). -/
theorem subr_adds_bias_and_missing_is_fatal :
    ∀ (c : Context) (idx : Int),
      (0 ≤ idx + c.subr_bias → idx + c.subr_bias < 2 ^ 31 →
        ∀ s, c.subr idx = .ok s ↔
          c.subrs.get? (idx + c.subr_bias).toNat = some s)
      ∧ (0 ≤ idx + c.subr_bias → idx + c.subr_bias < 2 ^ 31 →
          c.subrs.get? (idx + c.subr_bias).toNat = none →
          c.subr idx = .error .missingSubr)
      ∧ (-(2 ^ 31) ≤ idx + c.subr_bias → idx + c.subr_bias < 0 →
          c.subrs.length ≤ 2 ^ 63 →
          c.subr idx = .error .missingSubr)
      ∧ (2 ^ 31 ≤ idx + c.subr_bias → idx + c.subr_bias < 2 ^ 32 →
          c.subrs.length ≤ 2 ^ 63 →
          c.subr idx = .error .missingSubr)
      ∧ (0 ≤ idx + c.global_subr_bias → idx + c.global_subr_bias < 2 ^ 31 →
        ∀ s, c.global_subr idx = .ok s ↔
          c.global_subrs.get? (idx + c.global_subr_bias).toNat = some s)
      ∧ (0 ≤ idx + c.global_subr_bias → idx + c.global_subr_bias < 2 ^ 31 →
          c.global_subrs.get? (idx + c.global_subr_bias).toNat = none →
          c.global_subr idx = .error .missingSubr)
      ∧ (-(2 ^ 31) ≤ idx + c.global_subr_bias → idx + c.global_subr_bias < 0 →
          c.global_subrs.length ≤ 2 ^ 63 →
          c.global_subr idx = .error .missingSubr)
      ∧ (2 ^ 31 ≤ idx + c.global_subr_bias → idx + c.global_subr_bias < 2 ^ 32 →
          c.global_subrs.length ≤ 2 ^ 63 →
          c.global_subr idx = .error .missingSubr) := by
  intro c idx
  refine ⟨?_, ?_, ?_, ?_, ?_, ?_, ?_, ?_⟩
  · intro h0 h1 s
    have hu : usizeOfI32 (i32Wrap (idx + c.subr_bias))
        = (idx + c.subr_bias).toNat := by
      unfold i32Wrap usizeOfI32; omega
    unfold Context.subr tryIndexVec
    rw [hu]
    cases hg : c.subrs.get? (idx + c.subr_bias).toNat <;> simp [hg]
  · intro h0 h1 hnone
    have hu : usizeOfI32 (i32Wrap (idx + c.subr_bias))
        = (idx + c.subr_bias).toNat := by
      unfold i32Wrap usizeOfI32; omega
    unfold Context.subr tryIndexVec
    rw [hu, hnone]
  · intro h0 h1 hlen
    have hu : 2 ^ 63 ≤ usizeOfI32 (i32Wrap (idx + c.subr_bias)) := by
      unfold i32Wrap usizeOfI32; omega
    unfold Context.subr tryIndexVec
    rw [List.get?_eq_none.mpr (le_trans hlen hu)]
  · intro h0 h1 hlen
    have hu : 2 ^ 63 ≤ usizeOfI32 (i32Wrap (idx + c.subr_bias)) := by
      unfold i32Wrap usizeOfI32; omega
    unfold Context.subr tryIndexVec
    rw [List.get?_eq_none.mpr (le_trans hlen hu)]
  · intro h0 h1 s
    have hu : usizeOfI32 (i32Wrap (idx + c.global_subr_bias))
        = (idx + c.global_subr_bias).toNat := by
      unfold i32Wrap usizeOfI32; omega
    unfold Context.global_subr tryIndexVec
    rw [hu]
    cases hg : c.global_subrs.get? (idx + c.global_subr_bias).toNat <;> simp [hg]
  · intro h0 h1 hnone
    have hu : usizeOfI32 (i32Wrap (idx + c.global_subr_bias))
        = (idx + c.global_subr_bias).toNat := by
      unfold i32Wrap usizeOfI32; omega
    unfold Context.global_subr tryIndexVec
    rw [hu, hnone]
  · intro h0 h1 hlen
    have hu : 2 ^ 63 ≤ usizeOfI32 (i32Wrap (idx + c.global_subr_bias)) := by
      unfold i32Wrap usizeOfI32; omega
    unfold Context.global_subr tryIndexVec
    rw [List.get?_eq_none.mpr (le_trans hlen hu)]
  · intro h0 h1 hlen
    have hu : 2 ^ 63 ≤ usizeOfI32 (i32Wrap (idx + c.global_subr_bias)) := by
      unfold i32Wrap usizeOfI32; omega
    unfold Context.global_subr tryIndexVec
    rw [List.get?_eq_none.mpr (le_trans hlen hu)]

/-- **C5 witness**: with local bias 107 and a single local subroutine, a
call operand of −107 lands on position 0 and succeeds; operand 5 lands
on the absent position 112 and is fatal; operand −200 (in-range
negative position) is fatal; with bias 32768 the operand 2147483647
makes the `i32` sum overflow into `[2^31, 2^32)`, wrap negative, and
the lookup is fatal; and the global lookup mirrors the success case. -/
theorem subr_adds_bias_and_missing_is_fatal_witness :
    Context.subr ⟨107, [[14]], [[11]], 107⟩ (-107) = .ok [14]
    ∧ Context.subr ⟨107, [[14]], [[11]], 107⟩ 5 = .error .missingSubr
    ∧ Context.subr ⟨107, [[14]], [[11]], 107⟩ (-200) = .error .missingSubr
    ∧ Context.subr ⟨32768, [[14]], [[11]], 32768⟩ 2147483647
        = .error .missingSubr
    ∧ Context.global_subr ⟨107, [[14]], [[11]], 107⟩ (-107) = .ok [11] :=
  ⟨((subr_adds_bias_and_missing_is_fatal ⟨107, [[14]], [[11]], 107⟩ (-107)).1
      (by decide) (by decide) [14]).mpr (by decide),
   (subr_adds_bias_and_missing_is_fatal ⟨107, [[14]], [[11]], 107⟩ 5).2.1
      (by decide) (by decide) (by decide),
   (subr_adds_bias_and_missing_is_fatal ⟨107, [[14]], [[11]], 107⟩ (-200)).2.2.1
      (by decide) (by decide) (by decide),
   (subr_adds_bias_and_missing_is_fatal ⟨32768, [[14]], [[11]], 32768⟩
      2147483647).2.2.2.1 (by decide) (by decide) (by decide),
   ((subr_adds_bias_and_missing_is_fatal ⟨107, [[14]], [[11]], 107⟩ (-107)).2.2.2.2.1
      (by decide) (by decide) [11]).mpr (by decide)⟩

/-- Interpretation preserves the stack limit: from any stack within the
limit, a successful run ends within the limit — and since this holds of
every recursive call, every stack the interpreter ever holds is within
the limit (the only growing step, `pushLimited`, refuses to exceed
it). -/
theorem runCharstring_preserves_limit (limit : Nat) :
    ∀ (insns : List CsInstr) (stack out : List Value),
      stack.length ≤ limit → runCharstring limit insns stack = .ok out →
      out.length ≤ limit := by
  intro insns
  induction insns with
  | nil =>
    intro stack out h hrun
    rw [runCharstring] at hrun
    cases hrun
    exact h
  | cons instr rest ih =>
    intro stack out h hrun
    cases instr with
    | pushVal v =>
      rw [runCharstring] at hrun
      cases hp : pushLimited limit stack v with
      | ok stack2 =>
        rw [hp] at hrun
        refine ih stack2 out ?_ hrun
        unfold pushLimited at hp
        by_cases hle : limit ≤ stack.length
        · rw [if_pos hle] at hp
          cases hp
        · rw [if_neg hle] at hp
          cases hp
          simp only [List.length_append, List.length_cons, List.length_nil]
          omega
      | error e =>
        rw [hp] at hrun
        cases hrun
    | clearOp =>
      rw [runCharstring] at hrun
      exact ih [] out (by simp) hrun

/-- **C6**: interpreting a charstring, the operand stack never exceeds
48 entries for Type 2 and 24 for Type 1: every successful
interpretation keeps every stack it reaches within the limit, and the
push that would exceed the limit is the stack-overflow error rather
than a larger stack. -/
theorem charstring_stack_within_limit :
    (∀ insns out, runCharstring TYPE2_STACK_LIMIT insns [] = .ok out →
      out.length ≤ 48)
    ∧ (∀ insns out, runCharstring TYPE1_STACK_LIMIT insns [] = .ok out →
      out.length ≤ 24)
    ∧ (∀ (stack : List Value) v, 48 ≤ stack.length →
      pushLimited TYPE2_STACK_LIMIT stack v = .error .stackOverflow)
    ∧ (∀ (stack : List Value) v, 24 ≤ stack.length →
      pushLimited TYPE1_STACK_LIMIT stack v = .error .stackOverflow) := by
  refine ⟨fun insns out hrun =>
      runCharstring_preserves_limit TYPE2_STACK_LIMIT insns [] out (by simp) hrun,
    fun insns out hrun =>
      runCharstring_preserves_limit TYPE1_STACK_LIMIT insns [] out (by simp) hrun,
    fun stack v h => ?_, fun stack v h => ?_⟩
  · unfold pushLimited TYPE2_STACK_LIMIT
    rw [if_pos h]
  · unfold pushLimited TYPE1_STACK_LIMIT
    rw [if_pos h]

/-- **C6 witness**: 48 consecutive pushes execute (and the resulting
48-deep stack is within the limit); the 49th push — and a 49-push
charstring — fails with stack overflow. -/
theorem charstring_stack_within_limit_witness :
    runCharstring TYPE2_STACK_LIMIT
      (List.replicate 48 (CsInstr.pushVal (Value.int 1))) []
      = .ok (List.replicate 48 (Value.int 1))
    ∧ runCharstring TYPE2_STACK_LIMIT
      (List.replicate 49 (CsInstr.pushVal (Value.int 1))) []
      = .error .stackOverflow
    ∧ (List.replicate 48 (Value.int 1)).length ≤ 48
    ∧ pushLimited TYPE2_STACK_LIMIT (List.replicate 48 (Value.int 1)) (Value.int 1)
      = .error .stackOverflow := by
  refine ⟨rfl, rfl, ?_, ?_⟩
  · exact charstring_stack_within_limit.1
      (List.replicate 48 (CsInstr.pushVal (Value.int 1)))
      (List.replicate 48 (Value.int 1)) rfl
  · exact charstring_stack_within_limit.2.2.1
      (List.replicate 48 (Value.int 1)) (Value.int 1) (by simp)

/-- **C7 witness**: the concrete `"ttcf"` input reaches the
unsupported-format outcome. -/
theorem parse_collections_unsupported_witness :
    parse [0x74, 0x74, 0x63, 0x66] = .unsupported :=
  parse_collections_unsupported.1 []

/-- **C2 amended witness**: on the concrete `partialFont` (glyph 1
absent) the enumerator is not usable, via the amended equivalence. -/
theorem glyphs_ok_iff_every_glyph_present_witness :
    ¬ (partialFont.glyphs).isSome := fun h =>
  (by decide : ¬ ∀ gid < partialFont.num_glyphs, (partialFont.glyph gid).isSome)
    ((glyphs_ok_iff_every_glyph_present Unit partialFont).mp h)
